import Mathlib

/-!
Verification development for the Sip & Sizzle voice-bot bridge
(`src/server.js`).  The shallow embedding below translates, definition by
definition, the parts of the source that the specification's claims are
about:

* the G.711 mu-law codec helpers `ulawToLinear` (server.js lines 163-171)
  and `linearToUlaw` (lines 172-181 and the identical second iteration at
  lines 514-523);
* the SMS body construction of `sendSMS` (lines 218-225 / 550-557);
* the streaming-text token scanner and dispatcher that run inside the
  agent-leg message handler (lines 635-671);
* the per-call session bridge: greeting gating (`maybeStartGreeting`,
  lines 594-604), the outbound audio queue (`flushToTwilio`,
  lines 685-692, and the `response.audio.delta` branch, lines 675-681),
  the telephony message handler (lines 711-741) with its commit counter
  (`bytesSinceCommit` / `COMMIT_BYTES`, lines 567-568).

JavaScript machine integers are modelled as `Int`/`Nat` with the two's
complement reductions made explicit where the source relies on them;
JavaScript strings are modelled as `List Char`.
-/

namespace SipSizzle

/-! ### Mu-law codec (server.js lines 160-181, 513-523)

The source operates on 32-bit integers via JS bitwise operators, but every
sample reaching `linearToUlaw` is a 16-bit value read with `readInt16LE`,
so `(sample >> 8) & 0x80` is exactly bit 15 of the sample's 16-bit two's
complement representation; we model it as such via `emod 65536`.
`~x & 0xff` on a byte-sized nonnegative value is `0xff ^^^ x`. -/

/-- Clip ceiling, `const CLIP = 32635` (line 161 and line 517). -/
def CLIP : Int := 32635

/-- Exponent lookup table `exp_lut` (line 162). -/
def exp_lut : List Int := [0, 132, 396, 924, 1980, 4092, 8316, 16764]

/-- Decoder `ulawToLinear` (lines 163-171): bit-invert the byte, split it
into sign, exponent and mantissa, rebuild the linear sample from the
table, apply the sign. -/
def ulawToLinear (ulawByte : Nat) : Int :=
  let u := 0xff ^^^ (ulawByte &&& 0xff)
  let sign := u &&& 0x80
  let exponent := (u >>> 4) &&& 0x07
  let mantissa := u &&& 0x0f
  let sample : Int := exp_lut.getD exponent 0 + (mantissa <<< (exponent + 3) : Nat)
  if sign ≠ 0 then -sample else sample

/-- Exponent search loop of `linearToUlaw` (line 177 / 520):
`for (let expMask = 0x4000; (sample & expMask) === 0 && exponent > 0;
exponent--, expMask >>= 1) {}` starting from `exponent = 7`. -/
def ulawExpLoop (sample : Nat) : Nat → Nat → Nat
  | mask, e + 1 => if sample &&& mask == 0 then ulawExpLoop sample (mask >>> 1) e else e + 1
  | _, 0 => 0

/-- Sign bit `(sample >> 8) & 0x80` (line 173 / 515) for a 16-bit input,
i.e. bit 15 of the two's complement representation of the sample. -/
def ulawSign (sample : Int) : Nat :=
  ((sample % 65536).toNat >>> 8) &&& 0x80

/-- Clipping step `if (sample > CLIP) sample = CLIP` (line 175 / 518). -/
def ulawClip (sample : Int) : Int :=
  if sample > CLIP then CLIP else sample

/-- Byte assembly of `linearToUlaw` (lines 176-180 / 519-522): find the
exponent, extract the mantissa, bit-invert the assembled byte. -/
def ulawCompress (sign mag : Nat) : Nat :=
  let exponent := ulawExpLoop mag 0x4000 7
  let mantissa := (mag >>> (exponent + 3)) &&& 0x0f
  0xff ^^^ ((sign ||| (exponent <<< 4) ||| mantissa) &&& 0xff)

/-- Encoder `linearToUlaw` (lines 172-181 / 514-523): take the sign bit,
negate a negative sample, clip the magnitude to `CLIP`, then compress. -/
def linearToUlaw (sample : Int) : Nat :=
  ulawCompress (ulawSign sample)
    (ulawClip (if ulawSign sample ≠ 0 then -sample else sample)).toNat

/-! ### SMS body construction (server.js lines 218-225 / 550-557)

`sendSMS` appends a fixed opt-out suffix unless the body already ends
with it; only `finalBody` is handed to the delivery collaborator. -/

/-- Fixed opt-out suffix appended by `sendSMS` (line 219 / 551). -/
def smsSuffix : List Char :=
  " Reply STOP to opt out. HELP for help. Msg&data rates may apply.".toList

/-- Body actually delivered:
`const finalBody = body.endsWith(suffix) ? body : (body + suffix)`
(line 220 / 552). -/
def sendSMSBody (body : List Char) : List Char :=
  if smsSuffix.isSuffixOf body then body else body ++ smsSuffix

/-! ### Command token scanner and dispatcher (server.js lines 635-671)

The agent-leg message handler accumulates `response.text.delta` fragments
into `textAccum` (guarded by `msg.delta` being truthy, so empty fragments
are skipped), then on each arrival:

1. matches the accumulator against the case-insensitive regular
   expression pattern for two open brackets, the keyword MENU_SEARCH, a
   colon, optional whitespace, a nonempty run of characters other than a
   closing bracket, and two closing brackets (line 638); on a match it
   trims the captured query, removes the matched span (line 641,
   `textAccum.replace(m[0], '')` removes the leftmost occurrence, which
   is the match itself), and triggers a menu lookup;
2. checks, case-SENSITIVELY via `String.includes`, for each of the five
   `[[SEND:...]]` tokens in turn; the three menu-link tokens are guarded
   by the `sentDay`/`sentDinner`/`sentBev` flags and by the link being
   configured (lines 651-662), while the OPENTABLE and TOAST tokens have
   no flag (lines 664-671); each hit strips the first occurrence of the
   token and, when `callSid` is known, sends one SMS.

JS strings are modelled as `List Char`; only ASCII is involved. -/

/-- Exact token `[[SEND:MENU_DAY]]` (line 651). -/
def dayTok : List Char := "[[SEND:MENU_DAY]]".toList

/-- Exact token `[[SEND:MENU_DINNER]]` (line 655). -/
def dinnerTok : List Char := "[[SEND:MENU_DINNER]]".toList

/-- Exact token `[[SEND:MENU_BEVERAGE]]` (line 659). -/
def bevTok : List Char := "[[SEND:MENU_BEVERAGE]]".toList

/-- Exact token `[[SEND:OPENTABLE]]` (line 664). -/
def otTok : List Char := "[[SEND:OPENTABLE]]".toList

/-- Exact token `[[SEND:TOAST]]` (line 668). -/
def toastTok : List Char := "[[SEND:TOAST]]".toList

/-- Case-insensitive prefix test, modelling how a case-insensitive
regular expression matches its literal part against ASCII text. -/
def startsWithCI : List Char → List Char → Bool
  | [], _ => true
  | _ :: _, [] => false
  | p :: ps, c :: cs => p.toLower == c.toLower && startsWithCI ps cs

/-- Literal part of the MENU_SEARCH pattern (line 638). -/
def msKeyword : List Char := "[[MENU_SEARCH:".toList

/-- JS `String.prototype.trim`, as applied to the captured query
(line 640, `m[1].trim()`). -/
def trimChars (s : List Char) : List Char :=
  ((s.dropWhile Char.isWhitespace).reverse.dropWhile Char.isWhitespace).reverse

/-- Tail of the MENU_SEARCH pattern after the literal: optional
whitespace, then a nonempty capture of characters other than a closing
bracket (greedy, so it runs to the first closing bracket), then two
closing brackets.  Returns the raw capture region and the text after the
match, or none when the pattern cannot complete here. -/
def msTail (rest : List Char) : Option (List Char × List Char) :=
  let content := rest.takeWhile (fun c => c ≠ ']')
  match rest.dropWhile (fun c => c ≠ ']') with
  | ']' :: ']' :: tail => if content.isEmpty then none else some (content, tail)
  | _ => none

/-- Leftmost match of the MENU_SEARCH pattern over the accumulator
(lines 638-641): returns the trimmed query and the accumulator with the
matched span removed, or none when no complete token is present. -/
def scanMenuSearch : List Char → Option (List Char × List Char)
  | [] => none
  | c :: cs =>
    match (if startsWithCI msKeyword (c :: cs) then msTail ((c :: cs).drop 14) else none) with
    | some (content, tail) => some (trimChars content, tail)
    | none =>
      match scanMenuSearch cs with
      | some (q, acc) => some (q, c :: acc)
      | none => none

/-- JS `String.prototype.includes` with a plain-string argument
(lines 651, 655, 659, 664, 668): does `tok` occur contiguously? -/
def containsTok (tok : List Char) : List Char → Bool
  | [] => tok.isEmpty
  | c :: cs => tok.isPrefixOf (c :: cs) || containsTok tok cs

/-- JS `String.prototype.replace` with a plain-string pattern: remove the
first occurrence of `tok` (lines 652, 656, 660, 665, 669). -/
def removeFirst (tok : List Char) : List Char → List Char
  | [] => []
  | c :: cs =>
    if tok.isPrefixOf (c :: cs) then (c :: cs).drop tok.length
    else c :: removeFirst tok cs

/-- Link kinds of the fixed `[[SEND:<KIND>]]` set. -/
inductive LinkKind where
  | day | dinner | bev | opentable | toast
deriving DecidableEq, Repr

/-- Observable side effects of one scan pass: a menu lookup with the
extracted query, or an SMS dispatch of one link kind. -/
inductive ScanOut where
  | lookup (q : List Char)
  | sms (k : LinkKind)
deriving DecidableEq, Repr

/-- Per-call configuration consulted by the dispatch code: which menu
links are configured (`DAY_MENU_LINK` etc. nonempty) and whether
`callSid` is already known. -/
structure ScanConfig where
  hasDay : Bool
  hasDinner : Bool
  hasBev : Bool
  hasCallSid : Bool

/-- Scanner/dispatcher state captured by the connection closure:
`textAccum`, `sentDay`, `sentDinner`, `sentBev` (lines 564-565). -/
structure ScanState where
  textAccum : List Char
  sentDay : Bool
  sentDinner : Bool
  sentBev : Bool
deriving DecidableEq, Repr

/-- State at connection establishment (lines 564-565). -/
def initScan : ScanState := ⟨[], false, false, false⟩

/-- One flag-guarded SEND check (lines 651-654 and the two analogous
blocks): when the flag is still unset, the link is configured and the
exact token occurs, set the flag, strip the token, and send one SMS when
the caller number is resolvable. -/
def flaggedSend (flag hasLink hasCallSid : Bool) (tok : List Char) (k : LinkKind)
    (acc : List Char) : Bool × List Char × List ScanOut :=
  if !flag && hasLink && containsTok tok acc then
    (true, removeFirst tok acc, if hasCallSid then [ScanOut.sms k] else [])
  else (flag, acc, [])

/-- One unguarded SEND check (lines 664-667 and 668-671): no flag is
consulted or set; every pass that still finds the token strips one
occurrence and sends again. -/
def unflaggedSend (hasCallSid : Bool) (tok : List Char) (k : LinkKind)
    (acc : List Char) : List Char × List ScanOut :=
  if containsTok tok acc then
    (removeFirst tok acc, if hasCallSid then [ScanOut.sms k] else [])
  else (acc, [])

/-- MENU_SEARCH stage of the handler (lines 638-648): on a complete
token, strip it and record one lookup of the trimmed query. -/
def menuStage (acc0 : List Char) : List Char × List ScanOut :=
  match scanMenuSearch acc0 with
  | some (q, acc) => (acc, [ScanOut.lookup q])
  | none => (acc0, [])

/-- Processing of one `response.text.delta` fragment (lines 635-671). -/
def processDelta (cfg : ScanConfig) (st : ScanState) (delta : List Char) :
    ScanState × List ScanOut :=
  if delta.isEmpty then (st, []) else
  let s1 := menuStage (st.textAccum ++ delta)
  let r2 := flaggedSend st.sentDay cfg.hasDay cfg.hasCallSid dayTok LinkKind.day s1.1
  let r3 := flaggedSend st.sentDinner cfg.hasDinner cfg.hasCallSid dinnerTok LinkKind.dinner r2.2.1
  let r4 := flaggedSend st.sentBev cfg.hasBev cfg.hasCallSid bevTok LinkKind.bev r3.2.1
  let r5 := unflaggedSend cfg.hasCallSid otTok LinkKind.opentable r4.2.1
  let r6 := unflaggedSend cfg.hasCallSid toastTok LinkKind.toast r5.1
  (⟨r6.1, r2.1, r3.1, r4.1⟩, s1.2 ++ r2.2.2 ++ r3.2.2 ++ r4.2.2 ++ r5.2 ++ r6.2)

/-- Processing of a whole sequence of text fragments in arrival order. -/
def runDeltas (cfg : ScanConfig) (st : ScanState) :
    List (List Char) → ScanState × List ScanOut
  | [] => (st, [])
  | d :: ds =>
    let r1 := processDelta cfg st d
    let r2 := runDeltas cfg r1.1 ds
    (r2.1, r1.2 ++ r2.2)

/-! ### Session bridge state machine (server.js lines 560-746)

One accepted telephony connection owns the closure state declared at
lines 562-574.  Its two socket handlers are driven by asynchronous
message arrival, one message at a time; we model the session as a step
function over that state, driven by the events both sockets can deliver.
Outbound audio frames and inbound payload sizes are abstracted to `Nat`
(their bytes never influence control flow).  A `response.text.delta`
event is covered by this model through `oaResponseCreated` (its only
effect on the bridge fields modelled here is possibly setting
`activeResponse` when a menu answer is requested; its scanner effects
are modelled separately above). -/

/-- Commit threshold, `const COMMIT_BYTES = 1600` (line 568). -/
def COMMIT_BYTES : Nat := 1600

/-- Events a session can receive: the agent socket opening (line 607),
`response.created` / `response.done` control messages (lines 631-632),
an audio delta (line 675), the telephony `start`, `media` and `stop`
messages (lines 714, 722, 733), and either socket closing
(lines 625, 744). -/
inductive BridgeEvent where
  | oaOpenEvt
  | oaResponseCreated
  | oaResponseDone
  | oaAudioDelta (f : Nat)
  | twilioStart
  | twilioMedia (n : Nat)
  | twilioStop
  | twilioClose
  | oaClose
deriving DecidableEq, Repr

/-- Messages the session sends out: the session configuration and the
greeting request on the agent leg (lines 610, 599), the start beep and
relayed audio frames on the telephony leg (lines 707, 690), and audio
append/commit signals on the agent leg (lines 725, 728). -/
inductive BridgeOut where
  | sessionUpdate
  | greet
  | beep
  | mediaOut (f : Nat)
  | audioAppend (n : Nat)
  | commit
deriving DecidableEq, Repr

/-- Outbound telephony media (a frame relayed from the agent leg, or the
start beep); claims C6 and C7 are about these outputs. -/
def isTeleMedia : BridgeOut → Bool
  | BridgeOut.mediaOut _ => true
  | BridgeOut.beep => true
  | _ => false

/-- Session state captured by the connection closure (lines 562-574).
`streamSid` records whether the stream id has been assigned;
`twilioOpen` and `oaSocketOpen` model the two sockets' readyState being
OPEN (`close()` leaves the OPEN state immediately). -/
structure BridgeState where
  streamSid : Bool
  twilioReady : Bool
  oaReady : Bool
  greetingSent : Bool
  activeResponse : Bool
  twilioOpen : Bool
  oaSocketOpen : Bool
  pendingToTwilio : List Nat
  bytesSinceCommit : Nat
deriving DecidableEq, Repr

/-- State at connection acceptance (lines 562-574): the telephony socket
is open, the agent socket still connecting, everything else unset. -/
def initBridge : BridgeState :=
  { streamSid := false, twilioReady := false, oaReady := false
    greetingSent := false, activeResponse := false
    twilioOpen := true, oaSocketOpen := false
    pendingToTwilio := [], bytesSinceCommit := 0 }

/-- Greeting gate `maybeStartGreeting` (lines 594-604): only when both
legs are ready, the greeting was not yet sent and no response is in
flight does it mark the greeting sent and request one agent turn. -/
def maybeStartGreeting (s : BridgeState) : BridgeState × List BridgeOut :=
  if s.twilioReady && s.oaReady && !s.greetingSent && !s.activeResponse then
    ({ s with greetingSent := true, activeResponse := true }, [BridgeOut.greet])
  else (s, [])

/-- Queue drain `flushToTwilio` (lines 685-692): bail out unless the
stream id is set and the telephony socket is open, otherwise send every
queued frame in order and empty the queue. -/
def flushToTwilio (s : BridgeState) : BridgeState × List BridgeOut :=
  if s.streamSid && s.twilioOpen then
    ({ s with pendingToTwilio := [] }, s.pendingToTwilio.map BridgeOut.mediaOut)
  else (s, [])

/-- Start beep `sendBeep` (lines 694-708): a single telephony media
frame, guarded by the same readiness checks as the flush. -/
def sendBeep (s : BridgeState) : BridgeState × List BridgeOut :=
  if s.streamSid && s.twilioOpen then (s, [BridgeOut.beep]) else (s, [])

/-- One step of the session: the handler body run for one received
message (agent-leg handlers at lines 607-683, telephony handlers at
lines 711-745). -/
def stepBridge (s : BridgeState) : BridgeEvent → BridgeState × List BridgeOut
  | BridgeEvent.oaOpenEvt =>
    let s1 := { s with oaReady := true, oaSocketOpen := true }
    let r := maybeStartGreeting s1
    (r.1, BridgeOut.sessionUpdate :: r.2)
  | BridgeEvent.oaResponseCreated => ({ s with activeResponse := true }, [])
  | BridgeEvent.oaResponseDone => ({ s with activeResponse := false }, [])
  | BridgeEvent.oaAudioDelta f =>
    flushToTwilio { s with pendingToTwilio := s.pendingToTwilio ++ [f] }
  | BridgeEvent.twilioStart =>
    let s1 := { s with streamSid := true, twilioReady := true, bytesSinceCommit := 0 }
    let r1 := sendBeep s1
    let r2 := maybeStartGreeting r1.1
    (r2.1, r1.2 ++ r2.2)
  | BridgeEvent.twilioMedia n =>
    if s.oaSocketOpen then
      let c := s.bytesSinceCommit + n
      if COMMIT_BYTES ≤ c then
        ({ s with bytesSinceCommit := 0 }, [BridgeOut.audioAppend n, BridgeOut.commit])
      else
        ({ s with bytesSinceCommit := c }, [BridgeOut.audioAppend n])
    else (s, [])
  | BridgeEvent.twilioStop =>
    ({ s with oaSocketOpen := false, twilioOpen := false }, [])
  | BridgeEvent.twilioClose =>
    ({ s with oaSocketOpen := false, twilioOpen := false }, [])
  | BridgeEvent.oaClose =>
    ({ s with oaSocketOpen := false, twilioOpen := false }, [])

/-- Run of the session over a list of events in arrival order,
concatenating the outputs. -/
def runBridge (s : BridgeState) : List BridgeEvent → BridgeState × List BridgeOut
  | [] => (s, [])
  | e :: es =>
    let r1 := stepBridge s e
    let r2 := runBridge r1.1 es
    (r2.1, r1.2 ++ r2.2)

/-- Frames relayed to the telephony leg, in output order. -/
def sentFrames (outs : List BridgeOut) : List Nat :=
  outs.filterMap fun o =>
    match o with
    | BridgeOut.mediaOut f => some f
    | _ => none

/-- Frames produced by the agent leg, in arrival order. -/
def arrivedFrames (es : List BridgeEvent) : List Nat :=
  es.filterMap fun e =>
    match e with
    | BridgeEvent.oaAudioDelta f => some f
    | _ => none

/-- Configuration with all menu links set and the call id known, as in a
fully configured deployment. -/
def cfgAll : ScanConfig := ⟨true, true, true, true⟩

/-- The sample token of claim C2. -/
def msSearchRibeye : List Char := "[[MENU_SEARCH: ribeye]]".toList

/-- The query inside the claim C2 token. -/
def ribeyeQ : List Char := "ribeye".toList

/-- All-lower-case variant of the day-menu SEND token, for claim C3. -/
def lowSendDay : List Char := "[[send:menu_day]]".toList

/-- Case variant of ASCII text selected by a bit mask: bit `i` set makes
character `i` upper case, unset makes it lower case. -/
def caseApply (mask : Nat) : List Char → List Char
  | [] => []
  | c :: cs => (if mask % 2 == 1 then c.toUpper else c.toLower) :: caseApply (mask / 2) cs

/-- MENU_SEARCH token for the claim C2 query with the keyword in an
arbitrary letter case selected by `mask`. -/
def msVariantTok (mask : Nat) : List Char :=
  "[[".toList ++ caseApply mask ("menu_search".toList) ++ ": ribeye]]".toList

/-- Decidable check of the claim C2 property at one pair of fragment
split points. -/
def c2case (i j : Nat) : Bool :=
  decide ((runDeltas cfgAll initScan
      [msSearchRibeye.take i,
       (msSearchRibeye.drop i).take j,
       (msSearchRibeye.drop i).drop j]).2 = [ScanOut.lookup ribeyeQ]
    ∧ containsTok msSearchRibeye
        (runDeltas cfgAll initScan
          [msSearchRibeye.take i,
           (msSearchRibeye.drop i).take j,
           (msSearchRibeye.drop i).drop j]).1.textAccum = false)

/-- Exhaustive check of claim C2 over every pair of split points. -/
def c2check : Bool :=
  (List.range 24).all fun i => (List.range 24).all fun j => c2case i j

/-- Decidable check of MENU_SEARCH case-insensitivity at one keyword
case mask. -/
def c3case (m : Nat) : Bool :=
  decide ((runDeltas cfgAll initScan [msVariantTok m]).2 = [ScanOut.lookup ribeyeQ]
    ∧ (runDeltas cfgAll initScan [msVariantTok m]).1.textAccum = [])

/-- Exhaustive check of MENU_SEARCH case-insensitivity over one block
of 512 keyword case masks, `(off + hi) * 32 + lo` for `hi < 16`,
`lo < 32`; the four blocks `off = 0, 16, 32, 48` cover all 2048
masks. -/
def c3chunk (off : Nat) : Bool :=
  (List.range 16).all fun hi => (List.range 32).all fun lo => c3case ((off + hi) * 32 + lo)

/-! ### Theorems for claims C8, C9, C10 -/

/-- C8: for every compressed byte value `b` in `0..255`, decoding,
re-encoding and decoding again lands within the fixed quantization
tolerance 256 of the original decoded value, and the zero linear sample
round-trips exactly: `linearToUlaw 0` decodes back to exactly `0`. -/
theorem c8_roundtrip_within_tolerance :
    (∀ b : Fin 256,
      (ulawToLinear (linearToUlaw (ulawToLinear b.val)) - ulawToLinear b.val).natAbs ≤ 256)
    ∧ ulawToLinear (linearToUlaw 0) = 0 := by
  constructor
  · set_option maxRecDepth 4096 in decide
  · decide

/-- C9: every 16-bit linear PCM sample whose magnitude exceeds the clip
ceiling 32635 encodes to exactly the byte obtained by encoding the
ceiling value of the same sign; clipping saturates and never wraps. -/
theorem c9_encode_saturates (s : Int) (h1 : -32768 ≤ s) (h2 : s ≤ 32767)
    (h3 : 32635 < |s|) :
    linearToUlaw s = linearToUlaw (if s < 0 then -32635 else 32635) := by
  rcases lt_or_le s 0 with hs | hs
  · rw [if_pos hs]
    have habs : |s| = -s := abs_of_neg hs
    have hlo : s ≤ -32636 := by omega
    have hsgn : ulawSign s = 128 := by
      unfold ulawSign
      rw [Nat.shiftRight_eq_div_pow]
      have h8 : (2 : Nat) ^ 8 = 256 := by norm_num
      rw [h8]
      have hq : (s % 65536).toNat / 256 = 128 := by omega
      rw [hq]
      decide
    simp only [linearToUlaw, hsgn, ne_eq, OfNat.ofNat_ne_zero, not_false_eq_true,
      if_true]
    have hclip : ulawClip (-s) = 32635 := by
      unfold ulawClip CLIP
      rw [if_pos (by omega)]
    have hclip' : ulawClip (-(-32635 : Int)) = 32635 := by
      unfold ulawClip CLIP
      norm_num
    have hsgn' : ulawSign (-32635) = 128 := by decide
    rw [hclip]
    simp only [hsgn', ne_eq, OfNat.ofNat_ne_zero, not_false_eq_true, if_true, hclip']
  · rw [if_neg (by omega)]
    have habs : |s| = s := abs_of_nonneg hs
    have hlo : 32636 ≤ s := by omega
    have hsgn : ulawSign s = 0 := by
      unfold ulawSign
      rw [Nat.shiftRight_eq_div_pow]
      have h8 : (2 : Nat) ^ 8 = 256 := by norm_num
      rw [h8]
      have hq : (s % 65536).toNat / 256 = 127 := by omega
      rw [hq]
      decide
    simp only [linearToUlaw, hsgn, ne_eq, not_true_eq_false, if_false,
      not_false_eq_true]
    have hclip : ulawClip s = 32635 := by
      unfold ulawClip CLIP
      rw [if_pos (by omega)]
    have hsgn' : ulawSign 32635 = 0 := by decide
    have hclip' : ulawClip (32635 : Int) = 32635 := by
      unfold ulawClip CLIP
      norm_num
    rw [hclip]
    simp only [hsgn', ne_eq, not_true_eq_false, if_false, hclip']

/-- C9 witness: the saturation theorem applied at the concrete sample
32700, whose magnitude exceeds the ceiling. -/
theorem c9_encode_saturates_witness :
    (-32768 ≤ (32700 : Int) ∧ (32700 : Int) ≤ 32767 ∧ 32635 < |(32700 : Int)|)
    ∧ linearToUlaw 32700 = linearToUlaw (if (32700 : Int) < 0 then -32635 else 32635) :=
  ⟨by decide, c9_encode_saturates 32700 (by decide) (by decide) (by decide)⟩

/-- C10: every body handed to the message-delivery collaborator ends with
the fixed opt-out suffix, and the suffix-appending transformation is
idempotent: a body already carrying the suffix is left unchanged. -/
theorem c10_sms_suffix_idempotent (body : List Char) :
    smsSuffix.isSuffixOf (sendSMSBody body) = true
    ∧ sendSMSBody (sendSMSBody body) = sendSMSBody body := by
  have happ : smsSuffix.isSuffixOf (body ++ smsSuffix) = true := by
    simp only [List.isSuffixOf_iff_suffix]
    exact List.suffix_append _ _
  by_cases h : smsSuffix.isSuffixOf body = true
  · simp [sendSMSBody, h]
  · simp only [sendSMSBody, h, if_false, Bool.false_eq_true, happ, if_true,
      and_self]

/-! ### Dispatch counting lemmas (towards claims C1, C2, C3) -/

/-- A flag-guarded SEND stage never emits an SMS of a different kind. -/
theorem flaggedSend_count_ne {k k' : LinkKind} (h : k ≠ k')
    (flag hasLink hasCallSid : Bool) (tok acc : List Char) :
    ((flaggedSend flag hasLink hasCallSid tok k acc).2.2).count (ScanOut.sms k') = 0 := by
  unfold flaggedSend
  split
  · split <;> simp [List.count_cons, h]
  · simp

/-- An unguarded SEND stage never emits an SMS of a different kind. -/
theorem unflaggedSend_count_ne {k k' : LinkKind} (h : k ≠ k')
    (hasCallSid : Bool) (tok acc : List Char) :
    ((unflaggedSend hasCallSid tok k acc).2).count (ScanOut.sms k') = 0 := by
  unfold unflaggedSend
  split
  · split <;> simp [List.count_cons, h]
  · simp

/-- A flag-guarded SEND stage emits at most one SMS of its own kind. -/
theorem flaggedSend_count_le (flag hasLink hasCallSid : Bool)
    (tok acc : List Char) (k : LinkKind) :
    ((flaggedSend flag hasLink hasCallSid tok k acc).2.2).count (ScanOut.sms k) ≤ 1 := by
  unfold flaggedSend
  split
  · split <;> simp [List.count_cons]
  · simp

/-- A flag already set stays set through a flag-guarded SEND stage, and
the stage then emits nothing. -/
theorem flaggedSend_of_true (hasLink hasCallSid : Bool) (tok acc : List Char)
    (k : LinkKind) :
    (flaggedSend true hasLink hasCallSid tok k acc).1 = true
    ∧ (flaggedSend true hasLink hasCallSid tok k acc).2.2 = [] := by
  unfold flaggedSend
  simp

/-- When the flag comes out of a flag-guarded SEND stage unset, it went
in unset and the stage emitted nothing. -/
theorem flaggedSend_of_false (flag hasLink hasCallSid : Bool) (tok acc : List Char)
    (k : LinkKind) (h : (flaggedSend flag hasLink hasCallSid tok k acc).1 = false) :
    flag = false ∧ (flaggedSend flag hasLink hasCallSid tok k acc).2.2 = [] := by
  revert h
  unfold flaggedSend
  split
  · intro h
    simp at h
  · intro h
    exact ⟨h, rfl⟩

/-- The MENU_SEARCH stage never emits an SMS. -/
theorem menuStage_count_sms (acc0 : List Char) (k : LinkKind) :
    (menuStage acc0).2.count (ScanOut.sms k) = 0 := by
  unfold menuStage
  rcases scanMenuSearch acc0 with _ | ⟨q, acc⟩ <;> simp [List.count_cons]

/-- Day-kind bookkeeping of one fragment: at most one day SMS, a set
flag stays set and then suppresses emission, and an unset output flag
means nothing was emitted. -/
theorem processDelta_day_step (cfg : ScanConfig) (st : ScanState) (d : List Char) :
    ((processDelta cfg st d).2.count (ScanOut.sms LinkKind.day) ≤ 1)
    ∧ (st.sentDay = true →
        (processDelta cfg st d).1.sentDay = true
        ∧ (processDelta cfg st d).2.count (ScanOut.sms LinkKind.day) = 0)
    ∧ ((processDelta cfg st d).1.sentDay = false →
        (processDelta cfg st d).2.count (ScanOut.sms LinkKind.day) = 0) := by
  unfold processDelta
  split
  · simp
  · simp only [List.count_append, menuStage_count_sms,
      flaggedSend_count_ne (by decide : LinkKind.dinner ≠ LinkKind.day),
      flaggedSend_count_ne (by decide : LinkKind.bev ≠ LinkKind.day),
      unflaggedSend_count_ne (by decide : LinkKind.opentable ≠ LinkKind.day),
      unflaggedSend_count_ne (by decide : LinkKind.toast ≠ LinkKind.day)]
    refine ⟨by simpa using flaggedSend_count_le st.sentDay cfg.hasDay cfg.hasCallSid dayTok _ LinkKind.day, ?_, ?_⟩
    · intro hD
      rw [hD]
      have h := flaggedSend_of_true cfg.hasDay cfg.hasCallSid dayTok
        (menuStage (st.textAccum ++ d)).1 LinkKind.day
      simp [h.1, h.2]
    · intro hD
      have h := flaggedSend_of_false st.sentDay cfg.hasDay cfg.hasCallSid dayTok
        (menuStage (st.textAccum ++ d)).1 LinkKind.day hD
      simp [h.2]

/-- Dinner-kind bookkeeping of one fragment, as for the day kind. -/
theorem processDelta_dinner_step (cfg : ScanConfig) (st : ScanState) (d : List Char) :
    ((processDelta cfg st d).2.count (ScanOut.sms LinkKind.dinner) ≤ 1)
    ∧ (st.sentDinner = true →
        (processDelta cfg st d).1.sentDinner = true
        ∧ (processDelta cfg st d).2.count (ScanOut.sms LinkKind.dinner) = 0)
    ∧ ((processDelta cfg st d).1.sentDinner = false →
        (processDelta cfg st d).2.count (ScanOut.sms LinkKind.dinner) = 0) := by
  unfold processDelta
  split
  · simp
  · simp only [List.count_append, menuStage_count_sms,
      flaggedSend_count_ne (by decide : LinkKind.day ≠ LinkKind.dinner),
      flaggedSend_count_ne (by decide : LinkKind.bev ≠ LinkKind.dinner),
      unflaggedSend_count_ne (by decide : LinkKind.opentable ≠ LinkKind.dinner),
      unflaggedSend_count_ne (by decide : LinkKind.toast ≠ LinkKind.dinner)]
    refine ⟨by simpa using flaggedSend_count_le st.sentDinner cfg.hasDinner cfg.hasCallSid dinnerTok _ LinkKind.dinner, ?_, ?_⟩
    · intro hD
      rw [hD]
      have h := flaggedSend_of_true cfg.hasDinner cfg.hasCallSid dinnerTok
        (flaggedSend st.sentDay cfg.hasDay cfg.hasCallSid dayTok LinkKind.day
          (menuStage (st.textAccum ++ d)).1).2.1 LinkKind.dinner
      simp [h.1, h.2]
    · intro hD
      have h := flaggedSend_of_false st.sentDinner cfg.hasDinner cfg.hasCallSid dinnerTok
        (flaggedSend st.sentDay cfg.hasDay cfg.hasCallSid dayTok LinkKind.day
          (menuStage (st.textAccum ++ d)).1).2.1 LinkKind.dinner hD
      simp [h.2]

/-- Beverage-kind bookkeeping of one fragment, as for the day kind. -/
theorem processDelta_bev_step (cfg : ScanConfig) (st : ScanState) (d : List Char) :
    ((processDelta cfg st d).2.count (ScanOut.sms LinkKind.bev) ≤ 1)
    ∧ (st.sentBev = true →
        (processDelta cfg st d).1.sentBev = true
        ∧ (processDelta cfg st d).2.count (ScanOut.sms LinkKind.bev) = 0)
    ∧ ((processDelta cfg st d).1.sentBev = false →
        (processDelta cfg st d).2.count (ScanOut.sms LinkKind.bev) = 0) := by
  unfold processDelta
  split
  · simp
  · simp only [List.count_append, menuStage_count_sms,
      flaggedSend_count_ne (by decide : LinkKind.day ≠ LinkKind.bev),
      flaggedSend_count_ne (by decide : LinkKind.dinner ≠ LinkKind.bev),
      unflaggedSend_count_ne (by decide : LinkKind.opentable ≠ LinkKind.bev),
      unflaggedSend_count_ne (by decide : LinkKind.toast ≠ LinkKind.bev)]
    refine ⟨by simpa using flaggedSend_count_le st.sentBev cfg.hasBev cfg.hasCallSid bevTok _ LinkKind.bev, ?_, ?_⟩
    · intro hD
      rw [hD]
      have h := flaggedSend_of_true cfg.hasBev cfg.hasCallSid bevTok
        (flaggedSend st.sentDinner cfg.hasDinner cfg.hasCallSid dinnerTok LinkKind.dinner
          (flaggedSend st.sentDay cfg.hasDay cfg.hasCallSid dayTok LinkKind.day
            (menuStage (st.textAccum ++ d)).1).2.1).2.1 LinkKind.bev
      simp [h.1, h.2]
    · intro hD
      have h := flaggedSend_of_false st.sentBev cfg.hasBev cfg.hasCallSid bevTok
        (flaggedSend st.sentDinner cfg.hasDinner cfg.hasCallSid dinnerTok LinkKind.dinner
          (flaggedSend st.sentDay cfg.hasDay cfg.hasCallSid dayTok LinkKind.day
            (menuStage (st.textAccum ++ d)).1).2.1).2.1 LinkKind.bev hD
      simp [h.2]

/-- Trace bound for the day kind: starting from any state, a run emits
no day SMS when the flag is already set and at most one otherwise. -/
theorem runDeltas_day_le (cfg : ScanConfig) (ds : List (List Char)) :
    ∀ st : ScanState,
      (runDeltas cfg st ds).2.count (ScanOut.sms LinkKind.day)
        ≤ if st.sentDay then 0 else 1 := by
  induction ds with
  | nil => intro st; simp [runDeltas]
  | cons d ds ih =>
    intro st
    have hstep := processDelta_day_step cfg st d
    have hrec := ih (processDelta cfg st d).1
    simp only [runDeltas, List.count_append]
    cases hD : st.sentDay with
    | true =>
      obtain ⟨h1, h0⟩ := hstep.2.1 hD
      rw [h1] at hrec
      simp only [if_true] at hrec ⊢
      omega
    | false =>
      cases hD' : (processDelta cfg st d).1.sentDay with
      | true =>
        rw [hD'] at hrec
        have hle := hstep.1
        simp only [if_true, Bool.false_eq_true, if_false] at hrec ⊢
        omega
      | false =>
        have h0 := hstep.2.2 hD'
        rw [hD'] at hrec
        simp only [Bool.false_eq_true, if_false] at hrec ⊢
        omega

/-- Trace bound for the dinner kind. -/
theorem runDeltas_dinner_le (cfg : ScanConfig) (ds : List (List Char)) :
    ∀ st : ScanState,
      (runDeltas cfg st ds).2.count (ScanOut.sms LinkKind.dinner)
        ≤ if st.sentDinner then 0 else 1 := by
  induction ds with
  | nil => intro st; simp [runDeltas]
  | cons d ds ih =>
    intro st
    have hstep := processDelta_dinner_step cfg st d
    have hrec := ih (processDelta cfg st d).1
    simp only [runDeltas, List.count_append]
    cases hD : st.sentDinner with
    | true =>
      obtain ⟨h1, h0⟩ := hstep.2.1 hD
      rw [h1] at hrec
      simp only [if_true] at hrec ⊢
      omega
    | false =>
      cases hD' : (processDelta cfg st d).1.sentDinner with
      | true =>
        rw [hD'] at hrec
        have hle := hstep.1
        simp only [if_true, Bool.false_eq_true, if_false] at hrec ⊢
        omega
      | false =>
        have h0 := hstep.2.2 hD'
        rw [hD'] at hrec
        simp only [Bool.false_eq_true, if_false] at hrec ⊢
        omega

/-- Trace bound for the beverage kind. -/
theorem runDeltas_bev_le (cfg : ScanConfig) (ds : List (List Char)) :
    ∀ st : ScanState,
      (runDeltas cfg st ds).2.count (ScanOut.sms LinkKind.bev)
        ≤ if st.sentBev then 0 else 1 := by
  induction ds with
  | nil => intro st; simp [runDeltas]
  | cons d ds ih =>
    intro st
    have hstep := processDelta_bev_step cfg st d
    have hrec := ih (processDelta cfg st d).1
    simp only [runDeltas, List.count_append]
    cases hD : st.sentBev with
    | true =>
      obtain ⟨h1, h0⟩ := hstep.2.1 hD
      rw [h1] at hrec
      simp only [if_true] at hrec ⊢
      omega
    | false =>
      cases hD' : (processDelta cfg st d).1.sentBev with
      | true =>
        rw [hD'] at hrec
        have hle := hstep.1
        simp only [if_true, Bool.false_eq_true, if_false] at hrec ⊢
        omega
      | false =>
        have h0 := hstep.2.2 hD'
        rw [hD'] at hrec
        simp only [Bool.false_eq_true, if_false] at hrec ⊢
        omega

/-! ### Theorems for claims C1, C2, C3 -/

/-- C1 counterexample: the claim fails for the OPENTABLE kind, which has
no dispatched flag.  With all links configured and the caller known, a
call whose agent text contains the `[[SEND:OPENTABLE]]` token in two
separate turns delivers the reservation message twice. -/
theorem c1_counterexample_opentable_sent_twice :
    (runDeltas cfgAll initScan [otTok, otTok]).2.count
      (ScanOut.sms LinkKind.opentable) = 2 := by
  decide

/-- C1 amended: the at-most-once guarantee holds exactly for the three
flag-guarded kinds MENU_DAY, MENU_DINNER and MENU_BEVERAGE: in every
call at most one message of each of those kinds is delivered however
often the tokens appear, and each dispatched flag transitions false to
true at most once and never resets (it is monotone under every
fragment).  The OPENTABLE and TOAST kinds carry no flag and are
dispatched on every scan pass that finds their token. -/
theorem c1_amended_flagged_kinds_at_most_once :
    (∀ (cfg : ScanConfig) (ds : List (List Char)),
      (runDeltas cfg initScan ds).2.count (ScanOut.sms LinkKind.day) ≤ 1
      ∧ (runDeltas cfg initScan ds).2.count (ScanOut.sms LinkKind.dinner) ≤ 1
      ∧ (runDeltas cfg initScan ds).2.count (ScanOut.sms LinkKind.bev) ≤ 1)
    ∧ (∀ (cfg : ScanConfig) (st : ScanState) (d : List Char),
      (st.sentDay = true → (processDelta cfg st d).1.sentDay = true)
      ∧ (st.sentDinner = true → (processDelta cfg st d).1.sentDinner = true)
      ∧ (st.sentBev = true → (processDelta cfg st d).1.sentBev = true)) := by
  constructor
  · intro cfg ds
    refine ⟨?_, ?_, ?_⟩
    · simpa using runDeltas_day_le cfg ds initScan
    · simpa using runDeltas_dinner_le cfg ds initScan
    · simpa using runDeltas_bev_le cfg ds initScan
  · intro cfg st d
    exact ⟨fun h => ((processDelta_day_step cfg st d).2.1 h).1,
      fun h => ((processDelta_dinner_step cfg st d).2.1 h).1,
      fun h => ((processDelta_bev_step cfg st d).2.1 h).1⟩

/-- C1 amended witness: flag monotonicity exercised at a concrete state
with all three flags set and a fragment repeating a token. -/
theorem c1_amended_witness :
    ((⟨[], true, true, true⟩ : ScanState).sentDay = true
      ∧ (⟨[], true, true, true⟩ : ScanState).sentDinner = true
      ∧ (⟨[], true, true, true⟩ : ScanState).sentBev = true)
    ∧ ((processDelta cfgAll ⟨[], true, true, true⟩ dayTok).1.sentDay = true
      ∧ (processDelta cfgAll ⟨[], true, true, true⟩ dayTok).1.sentDinner = true
      ∧ (processDelta cfgAll ⟨[], true, true, true⟩ dayTok).1.sentBev = true) :=
  ⟨⟨rfl, rfl, rfl⟩,
    (c1_amended_flagged_kinds_at_most_once.2 cfgAll ⟨[], true, true, true⟩ dayTok).1 rfl,
    (c1_amended_flagged_kinds_at_most_once.2 cfgAll ⟨[], true, true, true⟩ dayTok).2.1 rfl,
    (c1_amended_flagged_kinds_at_most_once.2 cfgAll ⟨[], true, true, true⟩ dayTok).2.2 rfl⟩

set_option maxHeartbeats 3200000 in
/-- Evaluation of the exhaustive claim C2 split check. -/
theorem c2check_eq_true : c2check = true := by rfl

/-- C2: for every split of the text of a complete MENU_SEARCH token into
three fragments delivered in order, scanning on each arrival extracts
the query `ribeye` exactly once (the run's outputs are exactly one
lookup of that query) and the token text is absent from the accumulator
afterwards. -/
theorem c2_menu_search_split_into_three_fragments :
    ∀ i j : Fin 24,
      ((runDeltas cfgAll initScan
        [msSearchRibeye.take i.val,
         (msSearchRibeye.drop i.val).take j.val,
         (msSearchRibeye.drop i.val).drop j.val]).2 = [ScanOut.lookup ribeyeQ])
      ∧ containsTok msSearchRibeye
          (runDeltas cfgAll initScan
            [msSearchRibeye.take i.val,
             (msSearchRibeye.drop i.val).take j.val,
             (msSearchRibeye.drop i.val).drop j.val]).1.textAccum = false := by
  intro i j
  have h1 := List.all_eq_true.mp c2check_eq_true i.val (List.mem_range.mpr i.isLt)
  have h2 := List.all_eq_true.mp h1 j.val (List.mem_range.mpr j.isLt)
  exact of_decide_eq_true h2

/-- C3 counterexample: the claim fails for the SEND tokens, which are
matched case-sensitively by `String.includes`.  The lower-case token
`[[send:menu_day]]` triggers no message, leaves the dispatched flag
unset, and is not stripped from the accumulator. -/
theorem c3_counterexample_lowercase_send_ignored :
    (runDeltas cfgAll initScan [lowSendDay]).2.count (ScanOut.sms LinkKind.day) = 0
    ∧ (runDeltas cfgAll initScan [lowSendDay]).1.sentDay = false
    ∧ containsTok lowSendDay (runDeltas cfgAll initScan [lowSendDay]).1.textAccum = true := by
  decide

set_option maxHeartbeats 1600000 in
/-- Evaluation of the first block of keyword case masks. -/
theorem c3chunk0_eq_true : c3chunk 0 = true := by rfl

set_option maxHeartbeats 1600000 in
/-- Evaluation of the second block of keyword case masks. -/
theorem c3chunk16_eq_true : c3chunk 16 = true := by rfl

set_option maxHeartbeats 1600000 in
/-- Evaluation of the third block of keyword case masks. -/
theorem c3chunk32_eq_true : c3chunk 32 = true := by rfl

set_option maxHeartbeats 1600000 in
/-- Evaluation of the fourth block of keyword case masks. -/
theorem c3chunk48_eq_true : c3chunk 48 = true := by rfl

/-- Any mask whose high part falls in a verified block passes the
per-mask check. -/
theorem c3chunk_case (off m : Nat) (hoff : c3chunk off = true)
    (hlow : off ≤ m / 32) (hhigh : m / 32 < off + 16) :
    c3case m = true := by
  have h1 := List.all_eq_true.mp hoff (m / 32 - off) (List.mem_range.mpr (by omega))
  have h2 := List.all_eq_true.mp h1 (m % 32) (List.mem_range.mpr (by omega))
  have hv : (off + (m / 32 - off)) * 32 + m % 32 = m := by omega
  rw [hv] at h2
  exact h2

/-- C3 amended: keyword matching is case-insensitive for the MENU_SEARCH
token only — a MENU_SEARCH token with its keyword in any of the 2048
letter-case variants is recognized, triggers exactly one lookup and is
stripped — while the SEND tokens are matched case-sensitively: the
lower-case day token triggers nothing and stays in the accumulator. -/
theorem c3_amended_menu_search_case_insensitive_send_case_sensitive :
    (∀ mask : Fin 2048,
      ((runDeltas cfgAll initScan [msVariantTok mask.val]).2
        = [ScanOut.lookup ribeyeQ])
      ∧ (runDeltas cfgAll initScan [msVariantTok mask.val]).1.textAccum = [])
    ∧ ((runDeltas cfgAll initScan [lowSendDay]).2 = []
      ∧ (runDeltas cfgAll initScan [lowSendDay]).1.sentDay = false
      ∧ (runDeltas cfgAll initScan [lowSendDay]).1.textAccum = lowSendDay) := by
  constructor
  · intro mask
    have hm := mask.isLt
    have key : c3case mask.val = true := by
      by_cases h0 : mask.val / 32 < 16
      · exact c3chunk_case 0 mask.val c3chunk0_eq_true (by omega) (by omega)
      · by_cases h1 : mask.val / 32 < 32
        · exact c3chunk_case 16 mask.val c3chunk16_eq_true (by omega) (by omega)
        · by_cases h2 : mask.val / 32 < 48
          · exact c3chunk_case 32 mask.val c3chunk32_eq_true (by omega) (by omega)
          · exact c3chunk_case 48 mask.val c3chunk48_eq_true (by omega) (by omega)
    exact of_decide_eq_true key
  · decide

/-! ### Bridge step lemmas (towards claims C4, C5, C6, C7) -/

/-- Relayed telephony frames carry no greeting request. -/
theorem count_greet_map_mediaOut (l : List Nat) :
    (l.map BridgeOut.mediaOut).count BridgeOut.greet = 0 := by
  rw [List.count_eq_zero]
  simp

/-- Greeting bookkeeping of one step: at most one greeting request, a
sent greeting stays sent and suppresses further requests, an unsent
output flag means no request was emitted, and any emitted request sees
both readiness flags true. -/
theorem stepBridge_greet (s : BridgeState) (e : BridgeEvent) :
    ((stepBridge s e).2.count BridgeOut.greet ≤ if s.greetingSent then 0 else 1)
    ∧ (s.greetingSent = true →
        (stepBridge s e).1.greetingSent = true
        ∧ (stepBridge s e).2.count BridgeOut.greet = 0)
    ∧ ((stepBridge s e).1.greetingSent = false →
        (stepBridge s e).2.count BridgeOut.greet = 0)
    ∧ (BridgeOut.greet ∈ (stepBridge s e).2 →
        (stepBridge s e).1.twilioReady = true ∧ (stepBridge s e).1.oaReady = true) := by
  cases e <;>
    simp only [stepBridge, maybeStartGreeting, sendBeep, flushToTwilio] <;>
    split <;>
    simp_all [List.count_cons, count_greet_map_mediaOut] <;>
    split <;>
    simp_all [List.count_cons]

/-- Trace bound for the greeting: starting from any state a run emits no
greeting request when it was already sent and at most one otherwise. -/
theorem runBridge_greet_le (es : List BridgeEvent) :
    ∀ s : BridgeState,
      (runBridge s es).2.count BridgeOut.greet ≤ if s.greetingSent then 0 else 1 := by
  induction es with
  | nil => intro s; simp [runBridge]
  | cons e es ih =>
    intro s
    have hstep := stepBridge_greet s e
    have hrec := ih (stepBridge s e).1
    simp only [runBridge, List.count_append]
    cases hG : s.greetingSent with
    | true =>
      obtain ⟨h1, h0⟩ := hstep.2.1 hG
      rw [h1] at hrec
      simp only [if_true] at hrec ⊢
      omega
    | false =>
      cases hG' : (stepBridge s e).1.greetingSent with
      | true =>
        rw [hG'] at hrec
        have hle := hstep.1
        rw [hG] at hle
        simp only [if_true, Bool.false_eq_true, if_false] at hle hrec ⊢
        omega
      | false =>
        have h0 := hstep.2.2.1 hG'
        rw [hG'] at hrec
        simp only [Bool.false_eq_true, if_false] at hrec ⊢
        omega

/-- Relayed telephony frames of a drained queue, in order. -/
theorem sentFrames_map_mediaOut (l : List Nat) :
    sentFrames (l.map BridgeOut.mediaOut) = l := by
  induction l with
  | nil => rfl
  | cons a t ih =>
    simp only [sentFrames, List.map_cons, List.filterMap_cons] at ih ⊢
    rw [ih]

/-- Splitting `sentFrames` over concatenated outputs. -/
theorem sentFrames_append (o1 o2 : List BridgeOut) :
    sentFrames (o1 ++ o2) = sentFrames o1 ++ sentFrames o2 := by
  simp [sentFrames, List.filterMap_append]

/-- Splitting `arrivedFrames` over a first event. -/
theorem arrivedFrames_cons (e : BridgeEvent) (es : List BridgeEvent) :
    arrivedFrames (e :: es) = arrivedFrames [e] ++ arrivedFrames es := by
  cases e <;> simp [arrivedFrames, List.filterMap_cons]

/-- Frame conservation of one step: the frames sent by the step followed
by the frames still queued are exactly the previously queued frames
followed by the frames that arrived in the step. -/
theorem stepBridge_frames (s : BridgeState) (e : BridgeEvent) :
    sentFrames (stepBridge s e).2 ++ (stepBridge s e).1.pendingToTwilio
      = s.pendingToTwilio ++ arrivedFrames [e] := by
  cases e with
  | oaOpenEvt =>
    simp only [stepBridge, maybeStartGreeting]
    split <;> simp [sentFrames, arrivedFrames, List.filterMap_cons]
  | oaResponseCreated => simp [stepBridge, sentFrames, arrivedFrames]
  | oaResponseDone => simp [stepBridge, sentFrames, arrivedFrames]
  | oaAudioDelta f =>
    simp only [stepBridge, flushToTwilio]
    split
    · rw [sentFrames_map_mediaOut]
      simp [arrivedFrames, List.filterMap_cons]
    · simp [sentFrames, arrivedFrames, List.filterMap_cons]
  | twilioStart =>
    simp only [stepBridge, sendBeep, maybeStartGreeting]
    split <;> split <;> simp [sentFrames, arrivedFrames, List.filterMap_cons]
  | twilioMedia n =>
    simp only [stepBridge]
    split
    · split <;> simp [sentFrames, arrivedFrames, List.filterMap_cons]
    · simp [sentFrames, arrivedFrames, List.filterMap_cons]
  | twilioStop => simp [stepBridge, sentFrames, arrivedFrames]
  | twilioClose => simp [stepBridge, sentFrames, arrivedFrames]
  | oaClose => simp [stepBridge, sentFrames, arrivedFrames]

/-- Frame conservation along a run. -/
theorem runBridge_frames (es : List BridgeEvent) :
    ∀ s : BridgeState,
      sentFrames (runBridge s es).2 ++ (runBridge s es).1.pendingToTwilio
        = s.pendingToTwilio ++ arrivedFrames es := by
  induction es with
  | nil => intro s; simp [runBridge, sentFrames, arrivedFrames]
  | cons e es ih =>
    intro s
    have h1 := stepBridge_frames s e
    have h2 := ih (stepBridge s e).1
    rw [arrivedFrames_cons]
    simp only [runBridge, sentFrames_append]
    calc sentFrames (stepBridge s e).2 ++ sentFrames (runBridge (stepBridge s e).1 es).2
            ++ (runBridge (stepBridge s e).1 es).1.pendingToTwilio
        = sentFrames (stepBridge s e).2
            ++ (sentFrames (runBridge (stepBridge s e).1 es).2
              ++ (runBridge (stepBridge s e).1 es).1.pendingToTwilio) := by
          rw [List.append_assoc]
      _ = sentFrames (stepBridge s e).2
            ++ ((stepBridge s e).1.pendingToTwilio ++ arrivedFrames es) := by rw [h2]
      _ = (sentFrames (stepBridge s e).2 ++ (stepBridge s e).1.pendingToTwilio)
            ++ arrivedFrames es := by rw [List.append_assoc]
      _ = (s.pendingToTwilio ++ arrivedFrames [e]) ++ arrivedFrames es := by rw [h1]
      _ = s.pendingToTwilio ++ (arrivedFrames [e] ++ arrivedFrames es) := by
          rw [List.append_assoc]

/-- Telephony frames are only emitted by a step whose state has the
stream id assigned and the telephony socket open. -/
theorem stepBridge_mediaOut_ready (s : BridgeState) (e : BridgeEvent) (f : Nat)
    (h : BridgeOut.mediaOut f ∈ (stepBridge s e).2) :
    (stepBridge s e).1.streamSid = true ∧ (stepBridge s e).1.twilioOpen = true := by
  revert h
  cases e <;>
    simp only [stepBridge, maybeStartGreeting, sendBeep, flushToTwilio] <;>
    (try split) <;>
    (try split) <;>
    simp_all

/-- A session whose telephony socket is no longer open never again sends
a telephony media frame, and the socket never reopens. -/
theorem runBridge_closed_no_teleMedia (es : List BridgeEvent) :
    ∀ s : BridgeState, s.twilioOpen = false →
      ((runBridge s es).2.all (fun o => !(isTeleMedia o)) = true)
      ∧ (runBridge s es).1.twilioOpen = false := by
  induction es with
  | nil => intro s h; simp [runBridge]; exact h
  | cons e es ih =>
    intro s h
    have hstep : ((stepBridge s e).2.all (fun o => !(isTeleMedia o)) = true)
        ∧ (stepBridge s e).1.twilioOpen = false := by
      cases e <;>
        simp only [stepBridge, maybeStartGreeting, sendBeep, flushToTwilio] <;>
        (try split) <;>
        (try split) <;>
        simp_all [isTeleMedia]
    have hrec := ih (stepBridge s e).1 hstep.2
    refine ⟨?_, hrec.2⟩
    simp only [runBridge, List.all_append, hstep.1, hrec.1, Bool.and_self]

/-! ### Theorems for claims C4, C5, C6, C7 -/

/-- C4: from a state with the agent socket open and the commit counter
below the threshold, any sequence of telephony media events whose
payload byte counts first reach or cross the 1600-byte threshold at its
last event produces exactly one commit signal, and the counter is reset
to exactly zero (overflow bytes beyond the threshold are not
retained). -/
theorem c4_commit_exactly_once_and_reset (ns : List Nat) :
    ∀ s : BridgeState, s.oaSocketOpen = true →
      s.bytesSinceCommit < COMMIT_BYTES →
      (∀ k, k < ns.length → s.bytesSinceCommit + (ns.take k).sum < COMMIT_BYTES) →
      COMMIT_BYTES ≤ s.bytesSinceCommit + ns.sum →
      (runBridge s (ns.map BridgeEvent.twilioMedia)).2.count BridgeOut.commit = 1
      ∧ (runBridge s (ns.map BridgeEvent.twilioMedia)).1.bytesSinceCommit = 0 := by
  induction ns with
  | nil =>
    intro s hopen hlt hpre htot
    exfalso
    simp only [List.sum_nil, Nat.add_zero] at htot
    omega
  | cons n rest ih =>
    intro s hopen hlt hpre htot
    by_cases hc : COMMIT_BYTES ≤ s.bytesSinceCommit + n
    · cases rest with
      | nil =>
        simp [runBridge, stepBridge, hopen, hc, List.count_cons]
      | cons r rs =>
        exfalso
        have h1 := hpre 1 (by simp)
        simp only [List.take_succ_cons, List.take_zero, List.sum_cons, List.sum_nil,
          Nat.add_zero] at h1
        omega
    · have hstep : stepBridge s (BridgeEvent.twilioMedia n)
          = ({ s with bytesSinceCommit := s.bytesSinceCommit + n },
             [BridgeOut.audioAppend n]) := by
        simp [stepBridge, hopen, hc]
      have hpre' : ∀ k, k < rest.length →
          ({ s with bytesSinceCommit := s.bytesSinceCommit + n } :
            BridgeState).bytesSinceCommit + (rest.take k).sum < COMMIT_BYTES := by
        intro k hk
        have := hpre (k + 1) (by simpa using Nat.succ_lt_succ hk)
        simp only [List.take_succ_cons, List.sum_cons] at this
        simp only []
        omega
      have htot' : COMMIT_BYTES ≤
          ({ s with bytesSinceCommit := s.bytesSinceCommit + n } :
            BridgeState).bytesSinceCommit + rest.sum := by
        simp only [List.sum_cons] at htot
        simp only []
        omega
      have hrec := ih { s with bytesSinceCommit := s.bytesSinceCommit + n }
        hopen (by simp only []; omega) hpre' htot'
      simp only [List.map_cons, runBridge, hstep, List.count_append]
      refine ⟨?_, hrec.2⟩
      rw [hrec.1]
      simp [List.count_cons]

/-- C4 witness: a single 1600-byte media event from the ready state
right after the agent socket opened. -/
theorem c4_commit_witness :
    (({ initBridge with oaSocketOpen := true } : BridgeState).oaSocketOpen = true
      ∧ ({ initBridge with oaSocketOpen := true } : BridgeState).bytesSinceCommit < COMMIT_BYTES
      ∧ (∀ k, k < [1600].length →
          ({ initBridge with oaSocketOpen := true } : BridgeState).bytesSinceCommit
            + (([1600] : List Nat).take k).sum < COMMIT_BYTES)
      ∧ COMMIT_BYTES ≤ ({ initBridge with oaSocketOpen := true } : BridgeState).bytesSinceCommit
          + ([1600] : List Nat).sum)
    ∧ ((runBridge { initBridge with oaSocketOpen := true }
          (([1600] : List Nat).map BridgeEvent.twilioMedia)).2.count BridgeOut.commit = 1
      ∧ (runBridge { initBridge with oaSocketOpen := true }
          (([1600] : List Nat).map BridgeEvent.twilioMedia)).1.bytesSinceCommit = 0) :=
  ⟨⟨rfl, by decide,
      fun k hk => by
        have hk0 : k = 0 := by simp at hk; omega
        subst hk0; decide,
      by decide⟩,
    c4_commit_exactly_once_and_reset [1600] { initBridge with oaSocketOpen := true }
      rfl (by decide)
      (fun k hk => by
        have hk0 : k = 0 := by simp at hk; omega
        subst hk0; decide)
      (by decide)⟩

/-- C5: over every event interleaving, the greeting turn request is sent
at most once per session, and whenever a step emits it both the
telephony-ready and agent-ready flags are true at that step. -/
theorem c5_greeting_once_only_when_both_ready :
    (∀ es : List BridgeEvent,
      (runBridge initBridge es).2.count BridgeOut.greet ≤ 1)
    ∧ (∀ (es : List BridgeEvent) (e : BridgeEvent),
        BridgeOut.greet ∈ (stepBridge (runBridge initBridge es).1 e).2 →
        (stepBridge (runBridge initBridge es).1 e).1.twilioReady = true
        ∧ (stepBridge (runBridge initBridge es).1 e).1.oaReady = true) := by
  constructor
  · intro es
    have := runBridge_greet_le es initBridge
    simpa [initBridge] using this
  · intro es e h
    exact (stepBridge_greet (runBridge initBridge es).1 e).2.2.2 h

/-- C5 witness: the agent leg opens, then the telephony start event
completes the readiness pair and emits the greeting with both flags
true. -/
theorem c5_greeting_witness :
    BridgeOut.greet ∈ (stepBridge (runBridge initBridge [BridgeEvent.oaOpenEvt]).1
      BridgeEvent.twilioStart).2
    ∧ ((stepBridge (runBridge initBridge [BridgeEvent.oaOpenEvt]).1
          BridgeEvent.twilioStart).1.twilioReady = true
      ∧ (stepBridge (runBridge initBridge [BridgeEvent.oaOpenEvt]).1
          BridgeEvent.twilioStart).1.oaReady = true) :=
  ⟨by decide,
    c5_greeting_once_only_when_both_ready.2 [BridgeEvent.oaOpenEvt]
      BridgeEvent.twilioStart (by decide)⟩

/-- C6: queued outbound audio frames are flushed to the telephony leg in
exactly arrival order with none dropped — over every run the frames sent
followed by the frames still queued are exactly the frames that arrived,
in order — and no frame is ever sent by a step without the stream id set
and the telephony socket open. -/
theorem c6_fifo_no_drop_only_when_ready :
    (∀ es : List BridgeEvent,
      sentFrames (runBridge initBridge es).2
          ++ (runBridge initBridge es).1.pendingToTwilio
        = arrivedFrames es)
    ∧ (∀ (s : BridgeState) (e : BridgeEvent) (f : Nat),
        BridgeOut.mediaOut f ∈ (stepBridge s e).2 →
        (stepBridge s e).1.streamSid = true ∧ (stepBridge s e).1.twilioOpen = true) := by
  constructor
  · intro es
    have := runBridge_frames es initBridge
    simpa [initBridge] using this
  · intro s e f h
    exact stepBridge_mediaOut_ready s e f h

/-- C6 witness: a frame arriving after the stream started is relayed by
a step whose state has the stream id set and the socket open. -/
theorem c6_fifo_witness :
    BridgeOut.mediaOut 5 ∈ (stepBridge { initBridge with streamSid := true }
      (BridgeEvent.oaAudioDelta 5)).2
    ∧ ((stepBridge { initBridge with streamSid := true }
          (BridgeEvent.oaAudioDelta 5)).1.streamSid = true
      ∧ (stepBridge { initBridge with streamSid := true }
          (BridgeEvent.oaAudioDelta 5)).1.twilioOpen = true) :=
  ⟨by decide,
    c6_fifo_no_drop_only_when_ready.2 { initBridge with streamSid := true }
      (BridgeEvent.oaAudioDelta 5) 5 (by decide)⟩

/-- C7: processing a telephony stop event closes both legs, emits
nothing itself (queued audio is discarded, not flushed), and no later
event can make the session send another telephony media frame, whatever
audio is still queued. -/
theorem c7_stop_closes_both_and_silences (es1 es2 : List BridgeEvent) :
    ((stepBridge (runBridge initBridge es1).1 BridgeEvent.twilioStop).1.twilioOpen = false)
    ∧ ((stepBridge (runBridge initBridge es1).1 BridgeEvent.twilioStop).1.oaSocketOpen = false)
    ∧ ((stepBridge (runBridge initBridge es1).1 BridgeEvent.twilioStop).2 = ([] : List BridgeOut))
    ∧ ((runBridge (stepBridge (runBridge initBridge es1).1 BridgeEvent.twilioStop).1 es2).2.all
        (fun o => !(isTeleMedia o)) = true) := by
  refine ⟨rfl, rfl, rfl, ?_⟩
  exact (runBridge_closed_no_teleMedia es2 _ rfl).1

end SipSizzle
